import Mathlib

/-!
Shallow embedding of the watchdog process supervisor.

The Go sources embedded here are `src/process/process.go` (the process
lifecycle engine: command encoding, credential resolution, remote and local
launch, signal dispatch, the watch loop) and `src/watchdog.go` (the
orchestrator: the live-process table, watching by name, mass shutdown).

Effects are made explicit: the file system and key parser behind
`publicKeyFile` become a `KeyStore`, the transport behind `ssh.Dial`,
`NewSession` and `Session.Run` becomes a `Network`, and the local operating
system behind `exec.Command` becomes a `LocalOS`.  Each embedded function
threads these environments and, where a claim is about which external calls
happen, returns a trace of those calls next to its result.
-/

namespace Watchdog

/-- Log destinations, `Logs` of process.go: one path per output stream. -/
structure Logs where
  stdout : String
  stderr : String
  deriving Repr, DecidableEq

/-- Credentials of a target, `Auth` of process.go: a password and a
private-key file path, either of which may be empty. -/
structure Auth where
  password : String
  privateKey : String
  deriving Repr, DecidableEq

/-- A host descriptor, `Target` of process.go. -/
structure Target where
  auth : Auth
  hostname : String
  name : String
  port : Int
  username : String
  deriving Repr, DecidableEq

/-- A declared unit of work, `Process` of process.go. -/
structure Process where
  name : String
  arguments : List String
  target : String
  executable : String
  logs : Logs
  number : Int
  deriving Repr, DecidableEq

/-- The runtime handle, `StartedProcess` of process.go. -/
structure StartedProcess where
  executable : String
  server : Target
  pid : Int
  logs : Logs
  name : String
  deriving Repr, DecidableEq

/-- `createCommand` (process.go): `strings.Join(arguments, " ")` followed by
`fmt.Sprintf("nohup %s %s >> %s 2> %s & echo -n $!", executable, args,
logs.Stdout, logs.Stderr)`; `%s` substitution is string concatenation. -/
def createCommand (executable : String) (arguments : List String) (logs : Logs) : String :=
  let args := String.intercalate " " arguments
  "nohup " ++ executable ++ " " ++ args ++ " >> " ++ logs.stdout ++ " 2> " ++
    logs.stderr ++ " & echo -n $!"

/-- The spec's reference form for the encoded command, written from the
spec's words: `nohup <executable> <args joined by single spaces> >>
<stdout-path> 2> <stderr-path> & echo -n $!`.  Compared with
`createCommand` in C1. -/
def specCommandForm (executable : String) (arguments : List String) (logs : Logs) : String :=
  "nohup " ++ executable ++ " " ++ String.intercalate " " arguments ++ " >> " ++
    logs.stdout ++ " 2> " ++ logs.stderr ++ " & echo -n $!"

/-- Go's `strconv.Atoi`: an optional `+`/`-` sign, then one or more ASCII
digits, value within the 64-bit signed range; anything else (empty string,
stray characters, out of range) is an error. -/
def goAtoi (s : String) : Except Unit Int :=
  match s.data with
  | [] => Except.error ()
  | c :: rest =>
      let signed : Bool × List Char :=
        if c = '-' then (true, rest)
        else if c = '+' then (false, rest)
        else (false, c :: rest)
      if signed.2.isEmpty ∨ ¬ signed.2.all Char.isDigit then Except.error ()
      else
        let n : Nat := signed.2.foldl (fun a d => a * 10 + (d.toNat - 48)) 0
        let v : Int := if signed.1 then -(n : Int) else (n : Int)
        if v < -(2 ^ 63) ∨ 2 ^ 63 - 1 < v then Except.error () else Except.ok v

/-- The file system and key parser used by `publicKeyFile`:
`readFile` models `ioutil.ReadFile` (`none` = read error) and
`parsePrivateKey` models `ssh.ParsePrivateKey` (`none` = parse error,
`some k` = the parsed key material). -/
structure KeyStore where
  readFile : String → Option String
  parsePrivateKey : String → Option String

/-- An `ssh.AuthMethod` value; a Go `nil` method is `Option.none` at use
sites, so configured methods are `Option AuthMethod`. -/
inductive AuthMethod where
  | password (secret : String)
  | publicKeys (key : String)
  deriving Repr, DecidableEq

/-- The part of `ssh.ClientConfig` the code sets: the user and the
authentication method list (whose entries may be the `nil` method). -/
structure ClientConfig where
  user : String
  auth : List (Option AuthMethod)
  deriving Repr, DecidableEq

/-- The transport: `dial` models `ssh.Dial` on an address and a client
configuration, `newSession` models `connection.NewSession()`, and `run`
models `session.Run` on a command, returning the captured standard output
on success. -/
structure Network where
  dial : String → ClientConfig → Bool
  newSession : Bool
  run : String → Except String String

/-- `publicKeyFile` (process.go): read the key file, parse it; on either
failure return the `nil` method (`none`), never an error. -/
def publicKeyFile (ks : KeyStore) (file : String) : Option AuthMethod :=
  match ks.readFile file with
  | none => none
  | some buffer =>
      match ks.parsePrivateKey buffer with
      | none => none
      | some key => some (AuthMethod.publicKeys key)

/-- The credential-resolution stage of `createSSHSession` (process.go): the
three-way `if` that builds `sshConfig` or returns the
`"Incomplete credentials"` error before anything touches the network. -/
def credentialConfig (ks : KeyStore) (server : Target) : Except String ClientConfig :=
  if server.auth.privateKey = "" ∧ server.auth.password ≠ "" then
    Except.ok { user := server.username,
                auth := [some (AuthMethod.password server.auth.password)] }
  else if server.auth.password = "" ∧ server.auth.privateKey ≠ "" then
    Except.ok { user := server.username,
                auth := [publicKeyFile ks server.auth.privateKey] }
  else
    Except.error "Incomplete credentials"

/-- `createSSHSession` (process.go): resolve credentials, then
`ssh.Dial("tcp", hostname ++ ":" ++ Itoa(port), &sshConfig)` and
`connection.NewSession()`.  The second component records the network
attempt: `none` means the dial was never reached, `some cfg` means a dial
with configuration `cfg` was attempted. -/
def createSSHSession (ks : KeyStore) (net : Network) (server : Target) :
    Except String Unit × Option ClientConfig :=
  match credentialConfig ks server with
  | Except.error e => (Except.error e, none)
  | Except.ok sshConfig =>
      if net.dial (server.hostname ++ ":" ++ toString server.port) sshConfig then
        if net.newSession then (Except.ok (), some sshConfig)
        else (Except.error "Impossible to establish the connection", some sshConfig)
      else (Except.error "Impossible to establish the connection", some sshConfig)

/-- `Process.RunRemoteProcess` (process.go): obtain a session, run the
encoded command capturing standard output, parse the output as a decimal
integer pid, and only then build the handle. -/
def RunRemoteProcess (ks : KeyStore) (net : Network) (runtime : Process) (server : Target) :
    Except String StartedProcess :=
  match (createSSHSession ks net server).1 with
  | Except.error _ => Except.error "Failed to obtain an SSH session"
  | Except.ok _ =>
      let command := createCommand runtime.executable runtime.arguments runtime.logs
      match net.run command with
      | Except.error _ => Except.error ("Command : " ++ command ++ " : failed")
      | Except.ok output =>
          match goAtoi output with
          | Except.error _ => Except.error "Unexpected output"
          | Except.ok pid =>
              Except.ok { executable := runtime.executable
                          server := server
                          pid := pid
                          logs := { stdout := runtime.logs.stdout, stderr := runtime.logs.stderr }
                          name := runtime.name }

/-- The local operating system seen by `RunProcess`: whether each output
pipe attaches, the result of `command.Start()` (the child pid on success),
and the result of `command.Wait()` (the error's message is returned as-is
on a non-zero or abnormal exit). -/
structure LocalOS where
  stderrPipeOk : Bool
  stdoutPipeOk : Bool
  startResult : Except String Int
  waitResult : Except String Unit

/-- The sentinel `Target` that `RunProcess` stores in every local handle. -/
def localTarget : Target :=
  { auth := { password := "", privateKey := "" }
    hostname := "local"
    name := "local"
    port := 0
    username := "" }

/-- `RunProcess` (process.go): attach the stderr pipe, attach the stdout
pipe, start the child, then `command.Wait()` — the call returns only after
the child has exited — and only on a clean exit build the handle with the
pid captured from the started child. -/
def RunProcess (os : LocalOS) (executable stdoutLogfile stderrLogfile name : String)
    (arguments : List String) : Except String StartedProcess :=
  if ¬ os.stderrPipeOk then Except.error "CreateProcess() impossible to pipe stderr"
  else if ¬ os.stdoutPipeOk then Except.error "CreateProcess() impossible to pipe stdout"
  else
    match os.startResult with
    | Except.error _ => Except.error "CreateProcess() impossible to create the process"
    | Except.ok pid =>
        match os.waitResult with
        | Except.error e => Except.error e
        | Except.ok _ =>
            Except.ok { executable := executable
                        server := localTarget
                        pid := pid
                        logs := { stdout := stdoutLogfile, stderr := stderrLogfile }
                        name := name }

/-- One callback invocation of the watch goroutine: `onTick` with the
goroutine's handle copy, or `onCrash` with (a pointer to) that copy. -/
inductive WatchCall where
  | tick (p : StartedProcess)
  | crash (p : StartedProcess)
  deriving Repr, DecidableEq

/-- The body of the watch goroutine (process.go): on every timer tick call
`onTick`; when it reports an error, also call `onCrash`.  `tickErrors`
lists, per tick, whether `onTick` returned an error. -/
def watchLoop (process : StartedProcess) : List Bool → List WatchCall
  | [] => []
  | failed :: rest =>
      WatchCall.tick process ::
        ((if failed then [WatchCall.crash process] else []) ++ watchLoop process rest)

/-- `StartedProcess.Watch` (process.go): reject `frequency <= 0` with a
validation error before any ticker or goroutine exists (so no callback is
ever invoked); otherwise start the polling goroutine and return `nil`.
The second component is the list of callback invocations the spawned
goroutine performs over the given tick outcomes. -/
def Watch (process : StartedProcess) (frequency : Int) (tickErrors : List Bool) :
    Except String Unit × List WatchCall :=
  if frequency ≤ 0 then (Except.error "frequency must be greater than 0", [])
  else (Except.ok (), watchLoop process tickErrors)

/-- What `Signal` did to the outside world: how many times it called
`createSSHSession`, which commands it ran over the session, and which
local kill-utility invocations (executable, argument list) it started. -/
structure SignalTrace where
  sessionAttempts : Nat
  remoteRuns : List String
  localKills : List (String × List String)
  deriving Repr, DecidableEq

/-- `StartedProcess.Signal` (process.go).  Non-local target: format
`strace kill -s %d %d &> strace.log` with the numeric signal and the pid,
open one session, run the command once; no branch retries.  Local target:
start `/bin/kill -s <signal name> <pid>` (`sigName` models Go's
`syscall.Signal.String()`; `killStartOk` the outcome of
`command.Start()`). -/
def Signal (ks : KeyStore) (net : Network) (sigName : Int → String) (killStartOk : Bool)
    (process : StartedProcess) (signal : Int) : Except String Unit × SignalTrace :=
  if process.server.name ≠ "local" then
    let command := "strace kill -s " ++ toString signal ++ " " ++ toString process.pid ++
      " &> strace.log"
    match (createSSHSession ks net process.server).1 with
    | Except.error _ =>
        (Except.error "Failed to create SSH Session (send signal)",
          { sessionAttempts := 1, remoteRuns := [], localKills := [] })
    | Except.ok _ =>
        match net.run command with
        | Except.error e =>
            (Except.error e,
              { sessionAttempts := 1, remoteRuns := [command], localKills := [] })
        | Except.ok _ =>
            (Except.ok (),
              { sessionAttempts := 1, remoteRuns := [command], localKills := [] })
  else
    let executable := "/bin/kill"
    let arguments := ["-s", sigName signal, toString process.pid]
    if killStartOk then
      (Except.ok (),
        { sessionAttempts := 0, remoteRuns := [], localKills := [(executable, arguments)] })
    else
      (Except.error "Failed to send signal",
        { sessionAttempts := 0, remoteRuns := [], localKills := [(executable, arguments)] })

/-- `StartedProcess.Kill` (process.go): `Signal(syscall.SIGTERM)`, and
SIGTERM is 15. -/
def Kill (ks : KeyStore) (net : Network) (sigName : Int → String) (killStartOk : Bool)
    (process : StartedProcess) : Except String Unit × SignalTrace :=
  Signal ks net sigName killStartOk process 15

/-- `killAll` (watchdog.go) over the live-process table, taken as an
association list in the (unspecified) order Go's map iteration visits it;
`kill` is `process.Kill()` under the ambient environment.  Kill each entry
in turn; on the first failure return that error at once, leaving the
failed entry and every unvisited entry in the table; on success delete the
entry.  Returns (result, the table afterwards, the handles confirmed
killed and removed). -/
def killAll (kill : StartedProcess → Except String Unit) :
    List (Int × StartedProcess) →
      Except String Unit × List (Int × StartedProcess) × List StartedProcess
  | [] => (Except.ok (), [], [])
  | (index, p) :: rest =>
      match kill p with
      | Except.error e => (Except.error e, (index, p) :: rest, [])
      | Except.ok _ =>
          let r := killAll kill rest
          (r.1, r.2.1, p :: r.2.2)

/-- `watch` (watchdog.go): walk the live-process table and start a watch
goroutine on every handle whose recorded `Name` equals `processName`;
the result lists exactly the handles a watch was attached to. -/
def watch (table : List (Int × StartedProcess)) (processName : String) :
    List StartedProcess :=
  (table.filter fun entry => processName == entry.2.name).map Prod.snd

/-- The orchestrator's table update `launchedProcess[started.Pid] = started`
(watchdog.go): Go map assignment, replacing the entry with that key or
appending a new one. -/
def insertHandle (table : List (Int × StartedProcess)) (started : StartedProcess) :
    List (Int × StartedProcess) :=
  if table.any (fun entry => entry.1 == started.pid) then
    table.map fun entry => if entry.1 == started.pid then (started.pid, started) else entry
  else
    table ++ [(started.pid, started)]

/-- The live-process table as a Go map: keys are pairwise distinct and each
entry is keyed by its handle's pid (the orchestrator only ever inserts
`launchedProcess[started.Pid] = started`). -/
def wellFormedTable (table : List (Int × StartedProcess)) : Prop :=
  (table.map Prod.fst).Nodup ∧ ∀ entry ∈ table, entry.1 = entry.2.pid

/-- The three distinct storage locations involved in a watch: the caller's
handle variable, the orchestrator's table entry, and the watch goroutine's
private copy of the value receiver of `Watch`. -/
structure SupervisorStore where
  callerHandle : StartedProcess
  tableEntry : StartedProcess
  watchCopy : StartedProcess
  deriving Repr, DecidableEq

/-- Spawning the watch goroutine: the value receiver `process` is copied
into the goroutine's own location (`go func` closing over the method's
by-value receiver). -/
def startWatchTask (receiver : StartedProcess) (s : SupervisorStore) : SupervisorStore :=
  { s with watchCopy := receiver }

/-- One `onCrash(&process)` invocation whose body mutates or replaces the
handle through the pointer: the pointer targets the goroutine's copy, so
only that location changes. -/
def onCrashWrite (update : StartedProcess → StartedProcess) (s : SupervisorStore) :
    SupervisorStore :=
  { s with watchCopy := update s.watchCopy }

/-- A whole watch run's worth of crash-handler writes, in tick order. -/
def runWatchCrashes (updates : List (StartedProcess → StartedProcess))
    (s : SupervisorStore) : SupervisorStore :=
  updates.foldl (fun st f => onCrashWrite f st) s

/-- A key store whose every read and parse fails. -/
def sampleKS : KeyStore :=
  { readFile := fun _ => none, parsePrivateKey := fun _ => none }

/-- A network on which every dial fails. -/
def failNet : Network :=
  { dial := fun _ _ => false, newSession := false, run := fun _ => Except.error "unreachable" }

/-- A network on which everything succeeds and every remote command prints `42`. -/
def okNet : Network :=
  { dial := fun _ _ => true, newSession := true, run := fun _ => Except.ok "42" }

/-- A remote target with no credentials at all. -/
def bothEmptyTarget : Target :=
  { auth := { password := "", privateKey := "" },
    hostname := "host", name := "remote", port := 22, username := "alice" }

/-- A remote target with a password and no key. -/
def pwTarget : Target :=
  { auth := { password := "secret", privateKey := "" },
    hostname := "host", name := "remote", port := 22, username := "alice" }

/-- A remote target with a key path and no password. -/
def keyTarget : Target :=
  { auth := { password := "", privateKey := "/missing" },
    hostname := "host", name := "remote", port := 22, username := "alice" }

/-- A concrete process spec. -/
def sampleSpec : Process :=
  { name := "job", arguments := ["-f", "/var/log/a.log"], target := "remote",
    executable := "tail", logs := { stdout := "out.log", stderr := "err.log" }, number := 1 }

/-- A concrete handle on a local target. -/
def localHandle : StartedProcess :=
  { executable := "ls", server := localTarget, pid := 7,
    logs := { stdout := "out", stderr := "err" }, name := "job" }

/-- A concrete handle on a remote target. -/
def remoteHandle : StartedProcess :=
  { executable := "tail", server := pwTarget, pid := 9,
    logs := { stdout := "out", stderr := "err" }, name := "job" }

/-- Go's `syscall.Signal.String()` restricted to SIGTERM, the one signal the
witnesses send. -/
def sigNameTable (signal : Int) : String :=
  if signal = 15 then "terminated" else "signal " ++ toString signal

/-- C1: for every executable, argument list and `Logs` pair, `createCommand`
returns exactly the spec's reference string
`nohup <executable> <args joined by single spaces> >> <stdout-path> 2> <stderr-path> & echo -n $!`,
and on `ls`, `["-l","-a"]`, `{stdout:"output", stderr:"error"}` it yields
byte-for-byte `nohup ls -l -a >> output 2> error & echo -n $!`. -/
theorem C1_command_encoder_exact :
    (∀ (executable : String) (arguments : List String) (logs : Logs),
        createCommand executable arguments logs = specCommandForm executable arguments logs)
    ∧ createCommand "ls" ["-l", "-a"] { stdout := "output", stderr := "error" } =
        "nohup ls -l -a >> output 2> error & echo -n $!" :=
  ⟨fun _ _ _ => rfl, by decide⟩

/-- C2: credential resolution in `createSSHSession` fails with the
`Incomplete credentials` error — with no network attempt (`none` in the
trace) — exactly when the `Auth` has both password and key material empty
or both non-empty; with exactly one of the two present it instead produces
a client configuration holding the password method, or the method loaded
from the key file. -/
theorem C2_credential_resolution (ks : KeyStore) (net : Network) (server : Target) :
    (((server.auth.password = "" ∧ server.auth.privateKey = "") ∨
        (server.auth.password ≠ "" ∧ server.auth.privateKey ≠ "")) →
      createSSHSession ks net server = (Except.error "Incomplete credentials", none))
    ∧ (server.auth.privateKey = "" → server.auth.password ≠ "" →
        credentialConfig ks server = Except.ok
          { user := server.username,
            auth := [some (AuthMethod.password server.auth.password)] })
    ∧ (server.auth.password = "" → server.auth.privateKey ≠ "" →
        credentialConfig ks server = Except.ok
          { user := server.username,
            auth := [publicKeyFile ks server.auth.privateKey] }) := by
  refine ⟨?_, ?_, ?_⟩
  · intro h
    have hcfg : credentialConfig ks server = Except.error "Incomplete credentials" := by
      unfold credentialConfig
      split_ifs with h1 h2
      · exact absurd h1 (by tauto)
      · exact absurd h2 (by tauto)
      · rfl
    simp [createSSHSession, hcfg]
  · intro hk hp
    unfold credentialConfig
    rw [if_pos ⟨hk, hp⟩]
  · intro hp hk
    unfold credentialConfig
    rw [if_neg (fun hc => hc.2 hp), if_pos ⟨hp, hk⟩]

/-- Witness for C2: the incomplete-credentials error at a target with no
credentials, and the password method at a password-only target. -/
theorem C2_credential_resolution_witness :
    createSSHSession sampleKS failNet bothEmptyTarget =
        (Except.error "Incomplete credentials", none) ∧
    credentialConfig sampleKS pwTarget = Except.ok
        { user := "alice", auth := [some (AuthMethod.password "secret")] } :=
  ⟨(C2_credential_resolution sampleKS failNet bothEmptyTarget).1 (Or.inl ⟨rfl, rfl⟩),
   (C2_credential_resolution sampleKS failNet pwTarget).2.1 rfl (by decide)⟩

/-- C5: `Watch` with a non-positive interval returns the validation error at
once, and the goroutine's invocation list is empty — no `onTick` and no
`onCrash` call ever happens, whatever the tick outcomes would have been;
with any strictly positive interval it returns no error. -/
theorem C5_watch_interval (process : StartedProcess) (frequency : Int)
    (tickErrors : List Bool) :
    (frequency ≤ 0 →
        Watch process frequency tickErrors =
          (Except.error "frequency must be greater than 0", []))
    ∧ (0 < frequency → (Watch process frequency tickErrors).1 = Except.ok ()) := by
  constructor
  · intro h
    unfold Watch
    rw [if_pos h]
  · intro h
    unfold Watch
    rw [if_neg (by omega)]

/-- Witness for C5: interval 0 is rejected with no callback invocations;
interval 5000 is accepted. -/
theorem C5_watch_interval_witness :
    Watch localHandle 0 [true, false] =
        (Except.error "frequency must be greater than 0", []) ∧
    (Watch localHandle 5000 [true, false]).1 = Except.ok () :=
  ⟨(C5_watch_interval localHandle 0 [true, false]).1 (by decide),
   (C5_watch_interval localHandle 5000 [true, false]).2 (by decide)⟩

/-- Every field of the store after a run of crash-handler writes: only the
watch goroutine's own copy accumulates the updates. -/
theorem runWatchCrashes_fields (updates : List (StartedProcess → StartedProcess))
    (s : SupervisorStore) :
    (runWatchCrashes updates s).callerHandle = s.callerHandle ∧
    (runWatchCrashes updates s).tableEntry = s.tableEntry ∧
    (runWatchCrashes updates s).watchCopy =
      updates.foldl (fun copy f => f copy) s.watchCopy := by
  induction updates generalizing s with
  | nil => exact ⟨rfl, rfl, rfl⟩
  | cons f rest ih =>
      simpa [runWatchCrashes, onCrashWrite] using
        ih { s with watchCopy := f s.watchCopy }

/-- C10: `Watch` hands `onCrash` a pointer to the goroutine's private copy
of the value receiver, so a crash handler that mutates or replaces the
handle through that pointer changes only the goroutine's copy — the
caller's handle and the orchestrator's table entry are left exactly as
they were, while the copy accumulates the updates. -/
theorem C10_watch_value_receiver_frame (s : SupervisorStore)
    (updates : List (StartedProcess → StartedProcess)) :
    (runWatchCrashes updates (startWatchTask s.callerHandle s)).callerHandle =
        s.callerHandle ∧
    (runWatchCrashes updates (startWatchTask s.callerHandle s)).tableEntry =
        s.tableEntry ∧
    (runWatchCrashes updates (startWatchTask s.callerHandle s)).watchCopy =
        updates.foldl (fun copy f => f copy) s.callerHandle := by
  have h := runWatchCrashes_fields updates (startWatchTask s.callerHandle s)
  simpa [startWatchTask] using h

/-- What a successful remote launch must look like: session obtained, the
encoded command run, the captured output parsed, and the handle built from
the spec's fields, the dialed target and the parsed pid. -/
theorem RunRemoteProcess_ok_shape (ks : KeyStore) (net : Network) (runtime : Process)
    (server : Target) (started : StartedProcess)
    (h : RunRemoteProcess ks net runtime server = Except.ok started) :
    ∃ output pid,
      net.run (createCommand runtime.executable runtime.arguments runtime.logs) =
        Except.ok output ∧
      goAtoi output = Except.ok pid ∧
      started = { executable := runtime.executable, server := server, pid := pid,
                  logs := runtime.logs, name := runtime.name } := by
  unfold RunRemoteProcess at h
  rcases hs : (createSSHSession ks net server).1 with e | u
  · rw [hs] at h
    simp at h
  · rw [hs] at h
    simp only [] at h
    rcases hr : net.run (createCommand runtime.executable runtime.arguments runtime.logs)
      with e | output
    · rw [hr] at h
      simp at h
    · rw [hr] at h
      simp only [] at h
      rcases ha : goAtoi output with e | pid
      · rw [ha] at h
        simp at h
      · rw [ha] at h
        simp only [Except.ok.injEq] at h
        exact ⟨output, pid, rfl, ha, h.symm⟩

/-- C3: a remote launch returns an error and no handle when session
acquisition fails, when the remote command fails, or when the captured
output is not a parseable decimal integer; a handle is produced only when
the output parses, and then its `Pid` is the parsed integer and its
`Executable`, `Name`, `Logs` and `Server` fields equal the spec's fields
and the given target. -/
theorem C3_remote_launch (ks : KeyStore) (net : Network) (runtime : Process)
    (server : Target) :
    (∀ e, (createSSHSession ks net server).1 = Except.error e →
        RunRemoteProcess ks net runtime server =
          Except.error "Failed to obtain an SSH session")
    ∧ (∀ e, (createSSHSession ks net server).1 = Except.ok () →
        net.run (createCommand runtime.executable runtime.arguments runtime.logs) =
          Except.error e →
        RunRemoteProcess ks net runtime server = Except.error
          ("Command : " ++ createCommand runtime.executable runtime.arguments runtime.logs
            ++ " : failed"))
    ∧ (∀ output, (createSSHSession ks net server).1 = Except.ok () →
        net.run (createCommand runtime.executable runtime.arguments runtime.logs) =
          Except.ok output →
        goAtoi output = Except.error () →
        RunRemoteProcess ks net runtime server = Except.error "Unexpected output")
    ∧ (∀ started, RunRemoteProcess ks net runtime server = Except.ok started →
        ∃ output pid,
          net.run (createCommand runtime.executable runtime.arguments runtime.logs) =
            Except.ok output ∧
          goAtoi output = Except.ok pid ∧ started.pid = pid ∧
          started.executable = runtime.executable ∧ started.name = runtime.name ∧
          started.logs = runtime.logs ∧ started.server = server) := by
  refine ⟨?_, ?_, ?_, ?_⟩
  · intro e hs
    simp [RunRemoteProcess, hs]
  · intro e hs hr
    simp [RunRemoteProcess, hs, hr]
  · intro output hs hr ha
    simp [RunRemoteProcess, hs, hr, ha]
  · intro started h
    obtain ⟨output, pid, hr, ha, hshape⟩ :=
      RunRemoteProcess_ok_shape ks net runtime server started h
    exact ⟨output, pid, hr, ha, by rw [hshape], by rw [hshape], by rw [hshape],
      by rw [hshape], by rw [hshape]⟩

/-- The handle the sample spec yields on `okNet` (which echoes `42`). -/
def witnessHandle : StartedProcess :=
  { executable := "tail", server := pwTarget, pid := 42,
    logs := { stdout := "out.log", stderr := "err.log" }, name := "job" }

/-- Witness for C3: an unreachable network yields the session error, and a
network echoing `42` yields a handle with pid 42 and the spec's fields. -/
theorem C3_remote_launch_witness :
    RunRemoteProcess sampleKS failNet sampleSpec pwTarget =
        Except.error "Failed to obtain an SSH session" ∧
    (∃ output pid,
        okNet.run (createCommand sampleSpec.executable sampleSpec.arguments sampleSpec.logs) =
          Except.ok output ∧
        goAtoi output = Except.ok pid ∧ witnessHandle.pid = pid ∧
        witnessHandle.executable = sampleSpec.executable ∧
        witnessHandle.name = sampleSpec.name ∧
        witnessHandle.logs = sampleSpec.logs ∧ witnessHandle.server = pwTarget) :=
  ⟨(C3_remote_launch sampleKS failNet sampleSpec pwTarget).1
      "Impossible to establish the connection" rfl,
   (C3_remote_launch sampleKS okNet sampleSpec pwTarget).2.2.2 witnessHandle rfl⟩

/-- C4: a local launch returns only after `command.Wait()` — so a handle is
produced only when the wait observed a clean exit — and the handle's target
is the `"local"` sentinel (name and hostname), its pid is the one the
operating system reported at start, its log paths and name are the ones
passed in; stream-pipe failure, start failure, and a non-zero or abnormal
exit each yield an error and no handle. -/
theorem C4_local_launch (os : LocalOS) (executable stdoutLogfile stderrLogfile name : String)
    (arguments : List String) :
    (os.stderrPipeOk = false →
        RunProcess os executable stdoutLogfile stderrLogfile name arguments =
          Except.error "CreateProcess() impossible to pipe stderr")
    ∧ (os.stderrPipeOk = true → os.stdoutPipeOk = false →
        RunProcess os executable stdoutLogfile stderrLogfile name arguments =
          Except.error "CreateProcess() impossible to pipe stdout")
    ∧ (∀ m, os.stderrPipeOk = true → os.stdoutPipeOk = true →
        os.startResult = Except.error m →
        RunProcess os executable stdoutLogfile stderrLogfile name arguments =
          Except.error "CreateProcess() impossible to create the process")
    ∧ (∀ pid m, os.stderrPipeOk = true → os.stdoutPipeOk = true →
        os.startResult = Except.ok pid → os.waitResult = Except.error m →
        RunProcess os executable stdoutLogfile stderrLogfile name arguments =
          Except.error m)
    ∧ (∀ started,
        RunProcess os executable stdoutLogfile stderrLogfile name arguments =
          Except.ok started →
        os.waitResult = Except.ok () ∧
        (∃ pid, os.startResult = Except.ok pid ∧ started.pid = pid) ∧
        started.server.name = "local" ∧ started.server.hostname = "local" ∧
        started.logs = { stdout := stdoutLogfile, stderr := stderrLogfile } ∧
        started.name = name ∧ started.executable = executable) := by
  refine ⟨?_, ?_, ?_, ?_, ?_⟩
  · intro h1
    simp [RunProcess, h1]
  · intro h1 h2
    simp [RunProcess, h1, h2]
  · intro m h1 h2 h3
    simp [RunProcess, h1, h2, h3]
  · intro pid m h1 h2 h3 h4
    simp [RunProcess, h1, h2, h3, h4]
  · intro started h
    unfold RunProcess at h
    rcases h1 : os.stderrPipeOk with _ | _ <;> rw [h1] at h
    · simp at h
    · rcases h2 : os.stdoutPipeOk with _ | _ <;> rw [h2] at h
      · simp at h
      · rcases h3 : os.startResult with m | pid <;> rw [h3] at h
        · simp at h
        · rcases h4 : os.waitResult with m | u <;> rw [h4] at h
          · simp at h
          · simp at h
            subst h
            exact ⟨rfl, ⟨pid, rfl, rfl⟩, rfl, rfl, rfl, rfl, rfl⟩

/-- An operating system on which the local launch fully succeeds, assigning
pid 1234, and the child exits cleanly. -/
def okOS : LocalOS :=
  { stderrPipeOk := true, stdoutPipeOk := true,
    startResult := Except.ok 1234, waitResult := Except.ok () }

/-- An operating system on which the child exits non-zero. -/
def crashOS : LocalOS :=
  { stderrPipeOk := true, stdoutPipeOk := true,
    startResult := Except.ok 1234, waitResult := Except.error "exit status 2" }

/-- Witness for C4: a clean run yields the local-sentinel handle with the
OS pid and the given paths; a non-zero exit yields that error. -/
theorem C4_local_launch_witness :
    RunProcess okOS "ls" "o.log" "e.log" "list" ["-l"] = Except.ok
        { executable := "ls", server := localTarget, pid := 1234,
          logs := { stdout := "o.log", stderr := "e.log" }, name := "list" } ∧
    okOS.waitResult = Except.ok () ∧
    localTarget.name = "local" ∧ localTarget.hostname = "local" ∧
    RunProcess crashOS "ls" "o.log" "e.log" "list" ["-l"] =
        Except.error "exit status 2" :=
  ⟨rfl,
   ((C4_local_launch okOS "ls" "o.log" "e.log" "list" ["-l"]).2.2.2.2 _ rfl).1,
   ((C4_local_launch okOS "ls" "o.log" "e.log" "list" ["-l"]).2.2.2.2 _ rfl).2.2.1,
   ((C4_local_launch okOS "ls" "o.log" "e.log" "list" ["-l"]).2.2.2.2 _ rfl).2.2.2.1,
   (C4_local_launch crashOS "ls" "o.log" "e.log" "list" ["-l"]).2.2.2.1 1234
     "exit status 2" rfl rfl rfl rfl⟩

/-- Once credentials resolve to a configuration, `createSSHSession` always
attempts the dial with it, and any failure from there on is the connection
error. -/
theorem createSSHSession_resolved (ks : KeyStore) (net : Network) (server : Target)
    (cfg : ClientConfig) (hcfg : credentialConfig ks server = Except.ok cfg) :
    (createSSHSession ks net server).2 = some cfg ∧
    ((createSSHSession ks net server).1 = Except.ok () ∨
      (createSSHSession ks net server).1 =
        Except.error "Impossible to establish the connection") := by
  unfold createSSHSession
  rw [hcfg]
  rcases hd : net.dial (server.hostname ++ ":" ++ toString server.port) cfg with _ | _ <;>
    rcases hn : net.newSession with _ | _ <;> simp [hd, hn]

/-- C9: with an empty password and a non-empty key path whose file is
missing or unparseable, `createSSHSession` does not return the
incomplete-credentials error and does not fail at resolution time: the
`nil` method `publicKeyFile` returned is placed unchecked into the client
configuration, and the dial is still attempted with that configuration. -/
theorem C9_nil_auth_method_dial (ks : KeyStore) (net : Network) (server : Target)
    (hp : server.auth.password = "") (hk : server.auth.privateKey ≠ "")
    (hload : publicKeyFile ks server.auth.privateKey = none) :
    (createSSHSession ks net server).1 ≠ Except.error "Incomplete credentials" ∧
    (createSSHSession ks net server).2 =
      some { user := server.username, auth := [(none : Option AuthMethod)] } := by
  have hcfg : credentialConfig ks server = Except.ok
      { user := server.username, auth := [(none : Option AuthMethod)] } := by
    unfold credentialConfig
    rw [if_neg (fun hc => hc.2 hp), if_pos ⟨hp, hk⟩, hload]
  obtain ⟨h2, h1⟩ := createSSHSession_resolved ks net server _ hcfg
  refine ⟨fun hcontra => ?_, h2⟩
  rcases h1 with h | h
  · rw [h] at hcontra
    exact Except.noConfusion hcontra
  · rw [h] at hcontra
    exact absurd (Except.error.inj hcontra) (by decide)

/-- Witness for C9: a key-only target whose key file no read can find. -/
theorem C9_nil_auth_method_dial_witness :
    (createSSHSession sampleKS failNet keyTarget).1 ≠
        Except.error "Incomplete credentials" ∧
    (createSSHSession sampleKS failNet keyTarget).2 =
      some { user := "alice", auth := [(none : Option AuthMethod)] } :=
  C9_nil_auth_method_dial sampleKS failNet keyTarget rfl (by decide) rfl

/-- Counterexample to C6 as stated: on a handle with a non-local target and
a network where session acquisition fails, `Signal` attempts acquisition
once but runs the remote kill command zero times, not exactly once. -/
theorem C6_remote_run_counterexample :
    remoteHandle.server.name ≠ "local" ∧
    (Signal sampleKS failNet sigNameTable true remoteHandle 15).2.sessionAttempts = 1 ∧
    (Signal sampleKS failNet sigNameTable true remoteHandle 15).2.remoteRuns = [] := by
  refine ⟨by decide, rfl, rfl⟩

/-- C6 (amended): `Signal` on a handle whose target name is `"local"` calls
`createSSHSession` zero times, runs no remote command, and starts exactly
one local `/bin/kill -s <signal> <pid>` against the recorded pid; on any
other target name it attempts session acquisition exactly once per call
and runs the remote kill command exactly once when acquisition succeeds
(zero times when it fails), retrying neither. -/
theorem C6_signal_dispatch (ks : KeyStore) (net : Network) (sigName : Int → String)
    (killStartOk : Bool) (process : StartedProcess) (signal : Int) :
    (process.server.name = "local" →
        (Signal ks net sigName killStartOk process signal).2 =
          { sessionAttempts := 0, remoteRuns := [],
            localKills := [("/bin/kill", ["-s", sigName signal, toString process.pid])] })
    ∧ (process.server.name ≠ "local" →
        (Signal ks net sigName killStartOk process signal).2.sessionAttempts = 1 ∧
        (Signal ks net sigName killStartOk process signal).2.localKills = [] ∧
        (Signal ks net sigName killStartOk process signal).2.remoteRuns.length ≤ 1 ∧
        ((createSSHSession ks net process.server).1 = Except.ok () →
          (Signal ks net sigName killStartOk process signal).2.remoteRuns =
            ["strace kill -s " ++ toString signal ++ " " ++ toString process.pid ++
              " &> strace.log"]) ∧
        (∀ e, (createSSHSession ks net process.server).1 = Except.error e →
          (Signal ks net sigName killStartOk process signal).2.remoteRuns = [])) := by
  constructor
  · intro h
    rcases hb : killStartOk with _ | _ <;> simp [Signal, h, hb]
  · intro h
    rcases hs : (createSSHSession ks net process.server).1 with e | u
    · refine ⟨?_, ?_, ?_, ?_, ?_⟩ <;> simp [Signal, h, hs]
    · rcases hr : net.run ("strace kill -s " ++ toString signal ++ " " ++
          toString process.pid ++ " &> strace.log") with e | o
      · refine ⟨?_, ?_, ?_, ?_, ?_⟩ <;> simp [Signal, h, hs, hr]
      · refine ⟨?_, ?_, ?_, ?_, ?_⟩ <;> simp [Signal, h, hs, hr]

/-- Witness for C6 (amended): a local dispatch with no session attempt and
one `/bin/kill` start, and a remote dispatch on a healthy network with one
session attempt and one remote kill run. -/
theorem C6_signal_dispatch_witness :
    (Signal sampleKS okNet sigNameTable true localHandle 15).2 =
      { sessionAttempts := 0, remoteRuns := [],
        localKills := [("/bin/kill", ["-s", sigNameTable 15, toString localHandle.pid])] } ∧
    (Signal sampleKS okNet sigNameTable true remoteHandle 15).2.sessionAttempts = 1 ∧
    (Signal sampleKS okNet sigNameTable true remoteHandle 15).2.remoteRuns =
      ["strace kill -s " ++ toString (15 : Int) ++ " " ++ toString remoteHandle.pid ++
        " &> strace.log"] :=
  ⟨(C6_signal_dispatch sampleKS okNet sigNameTable true localHandle 15).1 rfl,
   ((C6_signal_dispatch sampleKS okNet sigNameTable true remoteHandle 15).2 (by decide)).1,
   ((C6_signal_dispatch sampleKS okNet sigNameTable true remoteHandle 15).2
      (by decide)).2.2.2.1 rfl⟩

/-- A sweep in which every kill succeeds removes every entry. -/
theorem killAll_all_ok (kill : StartedProcess → Except String Unit)
    (table : List (Int × StartedProcess))
    (h : ∀ p ∈ table, kill p.2 = Except.ok ()) :
    killAll kill table = (Except.ok (), [], table.map Prod.snd) := by
  induction table with
  | nil => rfl
  | cons hd tl ih =>
      obtain ⟨i, p⟩ := hd
      have hk : kill p = Except.ok () := h (i, p) (List.mem_cons_self _ _)
      simp [killAll, hk, ih fun q hq => h q (List.mem_cons_of_mem _ hq)]

/-- A sweep that returns `nil` has emptied the table and killed every
handle it held. -/
theorem killAll_ok_inv (kill : StartedProcess → Except String Unit)
    (table : List (Int × StartedProcess)) :
    (killAll kill table).1 = Except.ok () →
    (killAll kill table).2.1 = [] ∧ (killAll kill table).2.2 = table.map Prod.snd := by
  induction table with
  | nil => exact fun _ => ⟨rfl, rfl⟩
  | cons hd tl ih =>
      obtain ⟨i, p⟩ := hd
      intro h1
      rcases hk : kill p with e | u
      · rw [show killAll kill ((i, p) :: tl) =
            (Except.error e, (i, p) :: tl, []) by simp [killAll, hk]] at h1
        exact Except.noConfusion h1
      · have hrec : (killAll kill tl).1 = Except.ok () := by
          rw [show killAll kill ((i, p) :: tl) =
            ((killAll kill tl).1, (killAll kill tl).2.1, p :: (killAll kill tl).2.2) by
              simp [killAll, hk]] at h1
          exact h1
        obtain ⟨ha, hb⟩ := ih hrec
        constructor <;> simp [killAll, hk, ha, hb]

/-- A sweep stops at its first failing kill: the failed entry and every
entry after it stay in the table, the entries before it were killed and
removed. -/
theorem killAll_first_failure (kill : StartedProcess → Except String Unit)
    (front back : List (Int × StartedProcess)) (entry : Int × StartedProcess)
    (e : String) (hfront : ∀ p ∈ front, kill p.2 = Except.ok ())
    (hfail : kill entry.2 = Except.error e) :
    killAll kill (front ++ entry :: back) =
      (Except.error e, entry :: back, front.map Prod.snd) := by
  induction front with
  | nil =>
      obtain ⟨i, p⟩ := entry
      simp only [List.nil_append, List.map_nil]
      simp [killAll, hfail]
  | cons hd tl ih =>
      obtain ⟨i, p⟩ := hd
      have hk : kill p = Except.ok () := hfront (i, p) (List.mem_cons_self _ _)
      simp [killAll, hk, ih fun q hq => hfront q (List.mem_cons_of_mem _ hq)]

/-- C7: `killAll` kills every table entry and removes each as its kill is
confirmed, returning `nil` exactly when every entry was killed and removed;
on the first failing kill it stops at once, returns that failure, and
leaves the failed entry and every not-yet-visited entry in the table. -/
theorem C7_killAll_sweep (kill : StartedProcess → Except String Unit) :
    (∀ table : List (Int × StartedProcess),
        (∀ p ∈ table, kill p.2 = Except.ok ()) →
        killAll kill table = (Except.ok (), [], table.map Prod.snd))
    ∧ (∀ table : List (Int × StartedProcess),
        (killAll kill table).1 = Except.ok () →
        (killAll kill table).2.1 = [] ∧ (killAll kill table).2.2 = table.map Prod.snd)
    ∧ (∀ (front back : List (Int × StartedProcess)) (entry : Int × StartedProcess)
        (e : String), (∀ p ∈ front, kill p.2 = Except.ok ()) →
        kill entry.2 = Except.error e →
        killAll kill (front ++ entry :: back) =
          (Except.error e, entry :: back, front.map Prod.snd)) :=
  ⟨killAll_all_ok kill, killAll_ok_inv kill,
   fun front back entry e hfront hfail =>
     killAll_first_failure kill front back entry e hfront hfail⟩

/-- A kill that fails exactly on pid 9. -/
def sampleKill (p : StartedProcess) : Except String Unit :=
  if p.pid = 9 then Except.error "boom" else Except.ok ()

/-- Witness for C7: on a two-entry table, the all-succeed sweep empties the
table, and a sweep whose second kill fails keeps the failed entry and
reports its error. -/
theorem C7_killAll_sweep_witness :
    killAll (fun _ => Except.ok ()) [(7, localHandle), (9, remoteHandle)] =
      (Except.ok (), [], [localHandle, remoteHandle]) ∧
    killAll sampleKill ([(7, localHandle)] ++ (9, remoteHandle) :: []) =
      (Except.error "boom", (9, remoteHandle) :: [], [localHandle]) :=
  ⟨(C7_killAll_sweep fun _ => Except.ok ()).1 [(7, localHandle), (9, remoteHandle)]
      (fun _ _ => rfl),
   (C7_killAll_sweep sampleKill).2.2 [(7, localHandle)] [] (9, remoteHandle) "boom"
      (by intro p hp
          simp only [List.mem_singleton] at hp
          subst hp
          rfl)
      rfl⟩

/-- In a table with pairwise distinct keys, two entries with the same key
are the same entry. -/
theorem table_keys_inj {table : List (Int × StartedProcess)}
    (h : (table.map Prod.fst).Nodup) {p q : Int × StartedProcess}
    (hp : p ∈ table) (hq : q ∈ table) (hfst : p.1 = q.1) : p = q :=
  List.inj_on_of_nodup_map h hp hq hfst

/-- Go map assignment `launchedProcess[started.Pid] = started` keeps the
table well formed: keys stay pairwise distinct and each entry stays keyed
by its handle's pid. -/
theorem insertHandle_wellFormed (table : List (Int × StartedProcess))
    (started : StartedProcess) (h : wellFormedTable table) :
    wellFormedTable (insertHandle table started) := by
  obtain ⟨hnd, hkey⟩ := h
  unfold insertHandle
  split_ifs with hmem
  · constructor
    · have hmap : ((table.map fun entry =>
          if entry.1 == started.pid then (started.pid, started) else entry).map Prod.fst)
          = table.map Prod.fst := by
        rw [List.map_map]
        apply List.map_congr_left
        intro entry _
        by_cases hx : entry.1 = started.pid
        · simp [hx]
        · simp [hx]
      rw [hmap]
      exact hnd
    · intro entry hentry
      rcases List.mem_map.mp hentry with ⟨orig, horig, hrew⟩
      by_cases hx : orig.1 = started.pid
      · simp only [hx, beq_self_eq_true, if_true] at hrew
        rw [← hrew]
      · simp only [beq_iff_eq, hx, if_false] at hrew
        rw [← hrew]
        exact hkey orig horig
  · constructor
    · rw [List.map_append]
      rw [List.nodup_append]
      refine ⟨hnd, List.nodup_singleton _, ?_⟩
      intro a ha hb
      simp only [List.map_cons, List.map_nil, List.mem_singleton] at hb
      subst hb
      rcases List.mem_map.mp ha with ⟨entry, hentry, hfst⟩
      have : table.any (fun entry => entry.1 == started.pid) = true :=
        List.any_eq_true.mpr ⟨entry, hentry, by rw [hfst]; exact beq_self_eq_true _⟩
      exact hmem this
    · intro entry hentry
      rcases List.mem_append.mp hentry with h1 | h2
      · exact hkey entry h1
      · simp only [List.mem_singleton] at h2
        subst h2
        rfl

/-- `watch` attaches to a handle exactly when some table entry holds it and
its recorded name equals the requested one. -/
theorem watch_mem_iff (table : List (Int × StartedProcess)) (processName : String)
    (started : StartedProcess) :
    started ∈ watch table processName ↔
      (∃ index, (index, started) ∈ table) ∧ processName = started.name := by
  unfold watch
  constructor
  · intro h
    rcases List.mem_map.mp h with ⟨entry, hentry, hsnd⟩
    rcases List.mem_filter.mp hentry with ⟨hmem, hname⟩
    subst hsnd
    exact ⟨⟨entry.1, hmem⟩, eq_of_beq hname⟩
  · rintro ⟨⟨index, hmem⟩, hname⟩
    exact List.mem_map.mpr ⟨(index, started),
      List.mem_filter.mpr ⟨hmem, by simp [hname]⟩, rfl⟩

/-- C8: every handle a successful remote launch of a spec produces carries
that spec's name; two distinct entries of the well-formed (pid-keyed)
live-process table always hold distinct pids, and the orchestrator's
insertions preserve that shape; and `watch` by a name attaches to exactly
the table's handles recorded under that name — not fewer, not more — with
the attached set invariant (up to permutation) under launch order. -/
theorem C8_replica_watch :
    (∀ (ks : KeyStore) (net : Network) (runtime : Process) (server : Target)
        (started : StartedProcess),
        RunRemoteProcess ks net runtime server = Except.ok started →
        started.name = runtime.name)
    ∧ (∀ table : List (Int × StartedProcess), wellFormedTable table →
        ∀ p ∈ table, ∀ q ∈ table, p ≠ q → p.2.pid ≠ q.2.pid)
    ∧ (∀ (table : List (Int × StartedProcess)) (started : StartedProcess),
        wellFormedTable table → wellFormedTable (insertHandle table started))
    ∧ (∀ (table : List (Int × StartedProcess)) (processName : String)
        (started : StartedProcess),
        started ∈ watch table processName ↔
          (∃ index, (index, started) ∈ table) ∧ processName = started.name)
    ∧ (∀ (table₁ table₂ : List (Int × StartedProcess)) (processName : String),
        table₁.Perm table₂ →
        (watch table₁ processName).Perm (watch table₂ processName)) := by
  refine ⟨?_, ?_, ?_, ?_, ?_⟩
  · intro ks net runtime server started h
    obtain ⟨output, pid, _, _, hshape⟩ :=
      RunRemoteProcess_ok_shape ks net runtime server started h
    rw [hshape]
  · intro table hwf p hp q hq hne hpid
    obtain ⟨hnd, hkey⟩ := hwf
    exact hne (table_keys_inj hnd hp hq (by rw [hkey p hp, hkey q hq, hpid]))
  · intro table started hwf
    exact insertHandle_wellFormed table started hwf
  · intro table processName started
    exact watch_mem_iff table processName started
  · intro table₁ table₂ processName hperm
    exact (hperm.filter _).map _

/-- Witness for C8: a two-replica table of the `job` spec — the watch by
`"job"` attaches to exactly its two handles, and the table's entries hold
distinct pids. -/
theorem C8_replica_watch_witness :
    ({ executable := "tail", server := pwTarget, pid := 42,
       logs := { stdout := "out.log", stderr := "err.log" },
       name := "job" } : StartedProcess).name = sampleSpec.name ∧
    remoteHandle ∈ watch [(9, remoteHandle), (7, localHandle)] "job" ∧
    ¬ (7, localHandle) = (9, remoteHandle) := by
  refine ⟨?_, ?_, by decide⟩
  · exact (C8_replica_watch).1 sampleKS okNet sampleSpec pwTarget _ rfl
  · exact ((C8_replica_watch).2.2.2.1 [(9, remoteHandle), (7, localHandle)] "job"
      remoteHandle).mpr ⟨⟨9, List.mem_cons_self _ _⟩, rfl⟩

end Watchdog
